import Mathlib

/-!
# endr-i/go-mongo-pool: the connection pool of `pool.go`

A shallow embedding of `pool.go` (package `endrMongoPool`) and the properties of
its pool operations.

Modelling conventions.

* A Go pointer that may be nil is an `Option`; `none` is nil.  A Go `error` result
  is an `Option Error`; `none` is the nil error.
* The MongoDB driver is an external collaborator: one value of `Driver` fixes what
  the driver answers while one pool operation runs.  A call of the driver that
  builds a connection (`mongo.NewClient`, `Connect`, the first `Ping`,
  `Database`) returns or panics, a `Call`; the `recover` handler of `GetMongoDB`
  (lines 40-44) catches the panic.  The probe and the disconnect of a handle that
  the driver built are taken to return.
* The mutex `mu` is the field `mu` of the pool: `true` while it is locked.  Between
  calls it is locked only when a call of `GetMongoDB` has panicked between
  `Lock` (line 48) and `Unlock` (line 54), for no `Unlock` is deferred.
* The channel `conn.pool` is a `Chan`: its capacity, the values sent and not yet
  received (oldest first) and whether it has been closed.  The Go runtime serves
  blocked senders in arrival order after the buffered values, so one list holds
  the buffer followed by the blocked senders; `len(conn.pool)` is the buffered
  part only.
* `conn.Errors` is an unbuffered channel read by the embedding application: it
  holds no value, so a send on it is an event handed to that reader.
* Every operation returns a `Run`: the pool after it, the trace of the calls it
  made itself, and whether it returned or is parked, on the mutex or on a channel
  receive.  A call
  runs from its start until it returns or parks; the sending goroutines that
  `PutMongoDB` starts run between calls, in any order (`PutMongoDB_go`).
-/

namespace EndrMongoPool

/-- A non-nil Go `error`, by its message. -/
abbrev Error := String

/-- A non-nil `*mongo.Database`, by identity. -/
abbrev Handle := Nat

/-- A non-nil `*mongo.Client`, by identity. -/
abbrev Client := Nat

/-- A non-nil `*sync.WaitGroup`, by identity. -/
abbrev WaitGroup := Nat

/-- The struct `DBConfig` (lines 14-20). -/
structure DBConfig where
  Uri : String
  ConnectTimeout : Int
  DBName : String
  PoolSize : Int
deriving DecidableEq, Repr

/-- The fields of `options.ClientOptions` of the driver that `NewMongoDB` sets:
the URI applied, the connect timeout (a `time.Duration`, in nanoseconds) and the
maximum pool size (a `uint64`). -/
structure ClientOptions where
  Uri : Option String
  ConnectTimeout : Option Int
  MaxPoolSize : Option Nat
deriving DecidableEq, Repr

/-- The constant `time.Second`: a `time.Duration` counts nanoseconds. -/
def Second : Int := 1000000000

/-- The conversion `uint64(x)` of a Go `int`. -/
def uint64 (x : Int) : Nat := (x % 2 ^ 64).toNat

/-- The driver call `options.Client()`: nothing set. -/
def emptyOptions : ClientOptions := ⟨none, none, none⟩

/-- The driver setter `SetConnectTimeout`. -/
def SetConnectTimeout (o : ClientOptions) (d : Int) : ClientOptions :=
  { o with ConnectTimeout := some d }

/-- The driver setter `SetMaxPoolSize`. -/
def SetMaxPoolSize (o : ClientOptions) (u : Nat) : ClientOptions :=
  { o with MaxPoolSize := some u }

/-- How a call of the driver ends: it returns, or it panics with a value. -/
inductive Call (α : Type) where
  | returns (a : α)
  | panics (v : String)
deriving DecidableEq, Repr

/-- What the driver answers during one pool operation. -/
structure Driver where
  /-- The setter `ClientOptions.ApplyURI`: may set any option named in the URI. -/
  ApplyURI : ClientOptions → String → ClientOptions
  /-- The constructor `mongo.NewClient`. -/
  NewClient : ClientOptions → Call (Except Error Client)
  /-- The call `client.Connect`. -/
  Connect : Client → Call (Option Error)
  /-- The call `client.Ping` with the secondary read preference (line 104). -/
  PingClient : Client → Call (Option Error)
  /-- The call `client.Database`. -/
  Database : Client → String → Call (Option Handle)
  /-- The liveness probe of a handle, `db.Client().Ping(ctx, nil)`. -/
  Ping : Handle → Option Error
  /-- The call `db.Client().Disconnect`. -/
  Disconnect : Handle → Option Error

/-- The calls an operation makes, in the order it makes them.  `recovered v` is the
send on `conn.Errors` made by the `recover` handler of `GetMongoDB` (line 42),
`push e` the send made by the deferred function of `DBAsync` (line 115). -/
inductive Event where
  | newClient (o : ClientOptions)
  | connect (c : Client)
  | pingClient (c : Client)
  | println (s : String)
  | ping (db : Handle)
  | disconnect (db : Handle)
  | recovered (v : String)
  | go (db : Handle)
  | get
  | call (db : Handle)
  | put (db : Handle)
  | done (wg : WaitGroup)
  | push (e : Error)
deriving DecidableEq, Repr

/-- The state of the channel `conn.pool`. -/
structure Chan where
  cap : Nat
  queue : List Handle
  closed : Bool
deriving DecidableEq, Repr

/-- The builtin `len(ch)`: the number of buffered values. -/
def Chan.len (ch : Chan) : Nat := min ch.queue.length ch.cap

/-- The struct `MongoConnection` (lines 22-28).  `mu` tells whether the mutex is
locked; `senders` holds the goroutines started by `PutMongoDB` (line 73) that have
not reached their send yet. -/
structure MongoConnection where
  mu : Bool
  pool : Chan
  poolLength : Int
  config : DBConfig
  senders : List Handle
deriving DecidableEq, Repr

/-- How a call ends: it returns a value, or its goroutine is parked, on the locked
mutex or on a receive from the empty, open channel. -/
inductive Outcome (α : Type) where
  | returned (a : α)
  | parked
deriving DecidableEq, Repr

/-- One execution of an operation. -/
structure Run (α : Type) where
  conn : MongoConnection
  trace : List Event
  out : Outcome α

/-- The function `NewMongoConnection` (lines 30-37).  `make(chan T, n)` panics for
`n < 0`; the result is then `none`.  The allocation limit of the platform, above
which `make` panics as well, is not modelled: the pool is built for every
`n >= 0`. -/
def NewMongoConnection (dbConfig : DBConfig) : Option MongoConnection :=
  if dbConfig.PoolSize < 0 then none
  else some
    { mu := false
      pool := { cap := dbConfig.PoolSize.toNat, queue := [], closed := false }
      poolLength := 0
      config := dbConfig
      senders := [] }

/-- The client options built by lines 91-93 of `NewMongoDB`. -/
def mongoOptions (drv : Driver) (config : DBConfig) : ClientOptions :=
  let mongoOptions := drv.ApplyURI emptyOptions config.Uri
  let mongoOptions := SetConnectTimeout mongoOptions Second
  SetMaxPoolSize mongoOptions (uint64 config.ConnectTimeout)

/-- The method `NewMongoDB` (lines 89-110): the pair it returns, or the value it
panics with, and the driver calls it made. -/
def NewMongoDB (drv : Driver) (conn : MongoConnection) :
    Call (Option Handle × Option Error) × List Event :=
  let o := mongoOptions drv conn.config
  match drv.NewClient o with
  | .panics v => (.panics v, [.newClient o])
  | .returns (.error err) => (.returns (none, some err), [.newClient o])
  | .returns (.ok client) =>
    match drv.Connect client with
    | .panics v => (.panics v, [.newClient o, .connect client])
    | .returns (some err) => (.returns (none, some err), [.newClient o, .connect client])
    | .returns none =>
      match drv.PingClient client with
      | .panics v => (.panics v, [.newClient o, .connect client, .pingClient client])
      | .returns (some err) =>
        (.returns (none, some err), [.newClient o, .connect client, .pingClient client])
      | .returns none =>
        match drv.Database client conn.config.DBName with
        | .panics v =>
          (.panics v, [.newClient o, .connect client, .pingClient client,
            .println "Connected to MongoDB!"])
        | .returns db =>
          (.returns (db, none), [.newClient o, .connect client, .pingClient client,
            .println "Connected to MongoDB!"])

/-- The deferred function of lines 40-44 of `GetMongoDB`, run in the pool `conn`
when the call of `NewMongoDB` ended as `r`: a panic is recovered, its value is
sent on `conn.Errors`, and `GetMongoDB` returns its zero results, nil and nil. -/
def GetMongoDB_recover (conn : MongoConnection)
    (r : Call (Option Handle × Option Error) × List Event) :
    Run (Option Handle × Option Error) :=
  match r.1 with
  | .returns res => ⟨conn, r.2, .returned res⟩
  | .panics v => ⟨conn, r.2 ++ [.recovered v], .returned (none, none)⟩

/-- The pool with the queue of its channel replaced. -/
def MongoConnection.withQueue (conn : MongoConnection) (q : List Handle) : MongoConnection :=
  { conn with pool := { conn.pool with queue := q } }

/-- Lines 58-63 of `GetMongoDB`: `for db := range conn.pool` over the values
waiting in the channel, then the statement after the loop.  A `range` over a
channel ends only when the channel is closed and drained; on an empty open
channel the receive parks the goroutine. -/
def GetMongoDB_range (drv : Driver) (conn : MongoConnection) :
    List Handle → Run (Option Handle × Option Error)
  | [] =>
    if conn.pool.closed then
      GetMongoDB_recover (conn.withQueue []) (NewMongoDB drv (conn.withQueue []))
    else ⟨conn.withQueue [], [], .parked⟩
  | db :: rest =>
    match drv.Ping db with
    | none => ⟨conn.withQueue rest, [.ping db], .returned (some db, none)⟩
    | some _ =>
      let r := GetMongoDB_range drv conn rest
      { r with trace := .ping db :: r.trace }

/-- Lines 45-47 of `GetMongoDB`: the clamp of `config.PoolSize`. -/
def clampPoolSize (conn : MongoConnection) : MongoConnection :=
  if conn.config.PoolSize < 1 then { conn with config := { conn.config with PoolSize := 1 } }
  else conn

/-- The test of line 49, as `GetMongoDB` evaluates it after the clamp: when it
holds, a call that has got the mutex takes the creation path. -/
def takesCreationPath (conn : MongoConnection) : Prop :=
  (clampPoolSize conn).pool.len = 0 ∧
    (clampPoolSize conn).poolLength < (clampPoolSize conn).config.PoolSize

instance instDecidableTakesCreationPath (conn : MongoConnection) :
    Decidable (takesCreationPath conn) :=
  inferInstanceAs (Decidable ((clampPoolSize conn).pool.len = 0 ∧
    (clampPoolSize conn).poolLength < (clampPoolSize conn).config.PoolSize))

/-- Lines 50-55 of `GetMongoDB`, with the mutex held, from the end `r` of the call
of `NewMongoDB` on line 50.  When that call returned, the counter is incremented
for a nil error and the mutex is unlocked.  When it panicked, lines 51-55 are
skipped: the mutex stays locked and the deferred function takes over. -/
def GetMongoDB_create (conn : MongoConnection)
    (r : Call (Option Handle × Option Error) × List Event) :
    Run (Option Handle × Option Error) :=
  match r.1 with
  | .returns res =>
    GetMongoDB_recover
      (if res.2 = none then { conn with poolLength := conn.poolLength + 1 } else conn) r
  | .panics _ => GetMongoDB_recover { conn with mu := true } r

/-- The method `GetMongoDB` (lines 39-64).  A call that finds the mutex locked is
parked on line 48, after the clamp. -/
def GetMongoDB (drv : Driver) (conn : MongoConnection) : Run (Option Handle × Option Error) :=
  let conn := clampPoolSize conn
  if conn.mu then ⟨conn, [], .parked⟩
  else if conn.pool.len = 0 ∧ conn.poolLength < conn.config.PoolSize then
    GetMongoDB_create conn (NewMongoDB drv conn)
  else GetMongoDB_range drv conn conn.pool.queue

/-- The method `PutMongoDB` (lines 66-77).  The goroutine of line 73 is started,
not run. -/
def PutMongoDB (drv : Driver) (db : Option Handle) (conn : MongoConnection) :
    Run (Option Error) :=
  match db with
  | none => ⟨conn, [], .returned (some "nil database cannot be putted")⟩
  | some db =>
    match drv.Ping db with
    | some err => ⟨conn, [.ping db], .returned (some err)⟩
    | none => ⟨{ conn with senders := conn.senders ++ [db] }, [.ping db, .go db], .returned none⟩

/-- The goroutine of lines 73-75, for the `i`-th started sender: the send
`conn.pool <- db`.  The value joins the buffer, or waits behind it when the
buffer is full.  `none` when there is no such goroutine, or when the channel is
closed (the send panics). -/
def PutMongoDB_go (i : Nat) (conn : MongoConnection) : Option MongoConnection :=
  match conn.senders[i]? with
  | none => none
  | some db =>
    if conn.pool.closed then none
    else some { (conn.withQueue (conn.pool.queue ++ [db])) with
                  senders := conn.senders.eraseIdx i }

/-- The loop of `CloseMongoDB` (lines 80-86) over the values waiting in the
channel, then the `return` after the loop. -/
def CloseMongoDB_range (drv : Driver) (conn : MongoConnection) :
    List Handle → Run (Option Error)
  | [] =>
    if conn.pool.closed then ⟨conn.withQueue [], [], .returned none⟩
    else ⟨conn.withQueue [], [], .parked⟩
  | db :: rest =>
    match drv.Disconnect db with
    | some err => ⟨conn.withQueue rest, [.disconnect db], .returned (some err)⟩
    | none =>
      let r := CloseMongoDB_range drv conn rest
      { r with trace := .disconnect db :: r.trace }

/-- The method `CloseMongoDB` (lines 79-87). -/
def CloseMongoDB (drv : Driver) (conn : MongoConnection) : Run (Option Error) :=
  CloseMongoDB_range drv conn conn.pool.queue

/-- The operation handed to `DBAsync`: called with a handle (and `conn.Errors`),
it may use the pool and returns an error or nil. -/
abbrev Operation := Handle → MongoConnection → MongoConnection × Option Error

/-- The deferred `wg.Done()` of lines 118-120. -/
def deferDone : Option WaitGroup → List Event
  | none => []
  | some wg => [.done wg]

/-- The deferred function of lines 113-117. -/
def deferPush : Option Error → List Event
  | none => []
  | some err => [.push err]

/-- Lines 122-133 of `DBAsync` and its deferred calls, from the result `r` of the
call of `GetMongoDB` on line 121.  The deferred calls run last registered first:
`PutMongoDB` (when reached), then `wg.Done`, then the send on `conn.Errors`.
`drv2` is the driver at the time of the release. -/
def DBAsync_from (drv2 : Driver) (wg : Option WaitGroup) (f : Operation)
    (r : Run (Option Handle × Option Error)) : Run (Option Error) :=
  match r.out with
  | .parked => ⟨r.conn, .get :: r.trace, .parked⟩
  | .returned (_, some err) =>
    ⟨r.conn, .get :: r.trace ++ deferDone wg ++ deferPush (some err), .returned (some err)⟩
  | .returned (none, none) =>
    ⟨r.conn, .get :: r.trace ++ deferDone wg ++ deferPush (some "cannot get db"),
      .returned (some "cannot get db")⟩
  | .returned (some db, none) =>
    let res := f db r.conn
    let p := PutMongoDB drv2 (some db) res.1
    ⟨p.conn, .get :: r.trace ++ [.call db, .put db] ++ p.trace ++ deferDone wg ++ deferPush res.2,
      .returned res.2⟩

/-- The method `DBAsync` (lines 112-134). -/
def DBAsync (drv drv2 : Driver) (wg : Option WaitGroup) (f : Operation)
    (conn : MongoConnection) : Run (Option Error) :=
  DBAsync_from drv2 wg f (GetMongoDB drv conn)

/-- Serial calls of `GetMongoDB`, one per driver answer, with nothing in between:
each call is listed with the pool it started from. -/
def acquireAll : List Driver → MongoConnection →
    List (MongoConnection × Run (Option Handle × Option Error))
  | [], _ => []
  | drv :: rest, conn => (conn, GetMongoDB drv conn) :: acquireAll rest (GetMongoDB drv conn).conn

/-- A driver construction starts with `mongo.NewClient`. -/
def Event.isNewClient : Event → Bool
  | .newClient _ => true
  | _ => false

/-- The goroutine of `PutMongoDB` is started. -/
def Event.isGo : Event → Bool
  | .go _ => true
  | _ => false

/-- The operation `f` is called, or `PutMongoDB` is called, by `DBAsync`. -/
def Event.isCallOrPut : Event → Bool
  | .call _ => true
  | .put _ => true
  | _ => false

/-- The completion signal is marked done. -/
def Event.isDone : Event → Bool
  | .done _ => true
  | _ => false

/-- An error is sent on `conn.Errors` by the deferred function of `DBAsync`. -/
def Event.isPush : Event → Bool
  | .push _ => true
  | _ => false

/-- The pools that calls of the package reach: `Reach c d` when `d` comes from `c`
by calls of `GetMongoDB`, `PutMongoDB`, `CloseMongoDB` and `DBAsync` with any
driver answers, by the sends of started goroutines, and by parked calls of
`GetMongoDB` and `DBAsync` going on with their loop.  The operation handed to
`DBAsync` may use the pool through these calls only. -/
inductive Reach : MongoConnection → MongoConnection → Prop where
  | refl (c : MongoConnection) : Reach c c
  | acquire {c d : MongoConnection} (drv : Driver) :
      Reach c d → Reach c (GetMongoDB drv d).conn
  | wake {c d : MongoConnection} (drv : Driver) :
      Reach c d → Reach c (GetMongoDB_range drv d d.pool.queue).conn
  | release {c d : MongoConnection} (drv : Driver) (db : Option Handle) :
      Reach c d → Reach c (PutMongoDB drv db d).conn
  | send {c d e : MongoConnection} (i : Nat) :
      Reach c d → PutMongoDB_go i d = some e → Reach c e
  | shutdown {c d : MongoConnection} (drv : Driver) :
      Reach c d → Reach c (CloseMongoDB drv d).conn
  | async {c d : MongoConnection} (drv drv2 : Driver) (wg : Option WaitGroup) (f : Operation) :
      Reach c d → (∀ db u, Reach u (f db u).1) → Reach c (DBAsync drv drv2 wg f d).conn
  | wakeAsync {c d : MongoConnection} (drv drv2 : Driver) (wg : Option WaitGroup)
      (f : Operation) :
      Reach c d → (∀ db u, Reach u (f db u).1) →
      Reach c (DBAsync_from drv2 wg f (GetMongoDB_range drv d d.pool.queue)).conn

/-- The calls made to the driver, the send of the `recover` handler and the start
of a goroutine: the events of `GetMongoDB`, `PutMongoDB` and `CloseMongoDB`. -/
def Event.isDriver : Event → Bool
  | .get => false
  | .call _ => false
  | .put _ => false
  | .done _ => false
  | .push _ => false
  | _ => true

/-- What one call of `acquireAll` does when it takes the creation path and its
construction returns: the call `p.2`, started with the mutex free from the pool
`p.1` with the driver answers `drv`, makes the one driver construction of
`NewMongoDB` and returns its result, and leaves the channel, the started
goroutines and the mutex as they were. -/
def createsOne (drv : Driver) (p : MongoConnection × Run (Option Handle × Option Error)) :
    Prop :=
  takesCreationPath p.1 ∧
    (∃ res, (NewMongoDB drv p.1).1 = .returns res ∧ p.2.out = .returned res) ∧
    p.2.trace = (NewMongoDB drv p.1).2 ∧
    p.2.trace.countP Event.isNewClient = 1 ∧
    p.2.conn.pool = p.1.pool ∧ p.2.conn.senders = p.1.senders ∧ p.1.pool.queue = [] ∧
    p.1.mu = false ∧ p.2.conn.mu = false

/-- How the counter `poolLength` and the clamped capacity of `d` stand to those of
an earlier pool `c`. -/
def Grows (c d : MongoConnection) : Prop :=
  c.poolLength ≤ d.poolLength ∧
    max d.config.PoolSize 1 = max c.config.PoolSize 1 ∧
    (c.poolLength ≤ max c.config.PoolSize 1 → d.poolLength ≤ max d.config.PoolSize 1)

/-- A configuration with capacity 2 and the default connect timeout 10. -/
def scenarioConfig : DBConfig := ⟨"mongodb://localhost:27017", 10, "test", 2⟩

/-- A driver that connects at once and answers every probe: its next client is
`c`, and the handle of a client carries the number of the client. -/
def healthyDriver (c : Client) : Driver :=
  { ApplyURI := fun o uri => { o with Uri := some uri }
    NewClient := fun _ => .returns (.ok c)
    Connect := fun _ => .returns none
    PingClient := fun _ => .returns none
    Database := fun client _ => .returns (some client)
    Ping := fun _ => none
    Disconnect := fun _ => none }

/-- A driver whose `mongo.NewClient` panics. -/
def panickingDriver : Driver :=
  { healthyDriver 0 with NewClient := fun _ => .panics "invalid client options" }

/-- A driver for which the handle `stale` fails its liveness probe. -/
def staleDriver (stale : Handle) : Driver :=
  { healthyDriver 0 with Ping := fun db => if db = stale then some "connection lost" else none }

/-- The pool `NewMongoConnection scenarioConfig` builds. -/
def freshPool : MongoConnection :=
  { mu := false, pool := ⟨2, [], false⟩, poolLength := 0, config := scenarioConfig, senders := [] }

/-- The pool of capacity 2 after two calls of `GetMongoDB` that both built a
handle: no handle idle, two handles checked out. -/
def exhaustedPool : MongoConnection :=
  { mu := false, pool := ⟨2, [], false⟩, poolLength := 2, config := scenarioConfig, senders := [] }

/-- The pool of capacity 2 with its two handles idle and none checked out. -/
def idlePool : MongoConnection :=
  { mu := false, pool := ⟨2, [1, 2], false⟩, poolLength := 2, config := scenarioConfig, senders := [] }

/-- An operation that leaves the pool alone and returns an error. -/
def failingOperation : Operation := fun _ conn => (conn, some "operation failed")

theorem NewMongoDB_trace (drv : Driver) (conn : MongoConnection) :
    ∃ rest, (NewMongoDB drv conn).2 = .newClient (mongoOptions drv conn.config) :: rest ∧
      rest.countP Event.isNewClient = 0 := by
  simp only [NewMongoDB]
  split
  · exact ⟨[], rfl, rfl⟩
  · exact ⟨[], rfl, rfl⟩
  · split
    · exact ⟨_, rfl, rfl⟩
    · exact ⟨_, rfl, rfl⟩
    · split
      · exact ⟨_, rfl, rfl⟩
      · exact ⟨_, rfl, rfl⟩
      · split
        · exact ⟨_, rfl, rfl⟩
        · exact ⟨_, rfl, rfl⟩

theorem NewMongoDB_config (drv : Driver) (c d : MongoConnection) (h : c.config = d.config) :
    NewMongoDB drv c = NewMongoDB drv d := by
  simp only [NewMongoDB, h]

theorem range_first_healthy (drv : Driver) (conn : MongoConnection) (pre : List Handle)
    (db : Handle) (post : List Handle) (hpre : ∀ x ∈ pre, drv.Ping x ≠ none)
    (hdb : drv.Ping db = none) :
    GetMongoDB_range drv conn (pre ++ db :: post) =
      ⟨conn.withQueue post, pre.map Event.ping ++ [.ping db], .returned (some db, none)⟩ := by
  induction pre with
  | nil => simp [GetMongoDB_range, hdb]
  | cons x xs ih =>
    have hx : drv.Ping x ≠ none := hpre x (by simp)
    have ih2 := ih (fun y hy => hpre y (by simp [hy]))
    cases hp : drv.Ping x with
    | none => exact absurd hp hx
    | some e => simp [GetMongoDB_range, hp, ih2]

theorem range_all_sick (drv : Driver) (conn : MongoConnection) (q : List Handle)
    (hq : ∀ x ∈ q, drv.Ping x ≠ none) (hopen : conn.pool.closed = false) :
    GetMongoDB_range drv conn q = ⟨conn.withQueue [], q.map Event.ping, .parked⟩ := by
  induction q with
  | nil => simp [GetMongoDB_range, hopen]
  | cons x xs ih =>
    have hx : drv.Ping x ≠ none := hq x (by simp)
    have ih2 := ih (fun y hy => hq y (by simp [hy]))
    cases hp : drv.Ping x with
    | none => exact absurd hp hx
    | some e => simp [GetMongoDB_range, hp, ih2]

theorem clampPoolSize_pool (conn : MongoConnection) : (clampPoolSize conn).pool = conn.pool := by
  unfold clampPoolSize; split <;> rfl

theorem clampPoolSize_mu (conn : MongoConnection) : (clampPoolSize conn).mu = conn.mu := by
  unfold clampPoolSize; split <;> rfl

theorem clampPoolSize_poolLength (conn : MongoConnection) :
    (clampPoolSize conn).poolLength = conn.poolLength := by
  unfold clampPoolSize; split <;> rfl

theorem clampPoolSize_PoolSize (conn : MongoConnection) :
    (clampPoolSize conn).config.PoolSize = max conn.config.PoolSize 1 := by
  unfold clampPoolSize; split
  · simp; omega
  · simp; omega

theorem clampPoolSize_of_pos (conn : MongoConnection) (h : 1 ≤ conn.config.PoolSize) :
    clampPoolSize conn = conn := by
  unfold clampPoolSize; rw [if_neg (by omega)]

/-- A call of `GetMongoDB` that finds the mutex locked is parked on line 48 and has
made no call. -/
theorem GetMongoDB_of_locked (drv : Driver) (conn : MongoConnection) (hmu : conn.mu = true) :
    GetMongoDB drv conn = ⟨clampPoolSize conn, [], .parked⟩ := by
  simp only [GetMongoDB, clampPoolSize_mu, hmu, if_true]

theorem GetMongoDB_of_not_creation (drv : Driver) (conn : MongoConnection)
    (hmu : conn.mu = false) (h : ¬ takesCreationPath conn) :
    GetMongoDB drv conn =
      GetMongoDB_range drv (clampPoolSize conn) (clampPoolSize conn).pool.queue := by
  unfold takesCreationPath at h
  simp only [GetMongoDB, clampPoolSize_mu, hmu, if_neg h, Bool.false_eq_true, if_false]

theorem GetMongoDB_of_creation (drv : Driver) (conn : MongoConnection)
    (hmu : conn.mu = false) (h : takesCreationPath conn) :
    GetMongoDB drv conn =
      GetMongoDB_create (clampPoolSize conn) (NewMongoDB drv (clampPoolSize conn)) := by
  unfold takesCreationPath at h
  simp only [GetMongoDB, clampPoolSize_mu, hmu, if_pos h, Bool.false_eq_true, if_false]

/-- The creation path when the construction returns `res`. -/
theorem GetMongoDB_create_returns (conn : MongoConnection)
    (r : Call (Option Handle × Option Error) × List Event) (res : Option Handle × Option Error)
    (hr : r.1 = .returns res) :
    GetMongoDB_create conn r =
      ⟨if res.2 = none then { conn with poolLength := conn.poolLength + 1 } else conn,
        r.2, .returned res⟩ := by
  simp only [GetMongoDB_create, GetMongoDB_recover, hr]

/-- The creation path when the construction panics with `v`: the handler sends `v`
on `conn.Errors`, the call returns nil and nil, and the mutex stays locked. -/
theorem GetMongoDB_create_panics (conn : MongoConnection)
    (r : Call (Option Handle × Option Error) × List Event) (v : String)
    (hr : r.1 = .panics v) :
    GetMongoDB_create conn r =
      ⟨{ conn with mu := true }, r.2 ++ [.recovered v], .returned (none, none)⟩ := by
  simp only [GetMongoDB_create, GetMongoDB_recover, hr]

/-- With the channel open, a call of `GetMongoDB` that does not take the creation
path and finds no healthy idle handle is parked and has made no construction. -/
theorem GetMongoDB_exhausted (drv : Driver) (conn : MongoConnection)
    (hopen : conn.pool.closed = false) (hpath : ¬ takesCreationPath conn)
    (hsick : ∀ db ∈ conn.pool.queue, drv.Ping db ≠ none) :
    (GetMongoDB drv conn).out = .parked ∧
      (conn.mu = false → (GetMongoDB drv conn).trace = conn.pool.queue.map Event.ping) ∧
      (GetMongoDB drv conn).trace.countP Event.isNewClient = 0 := by
  cases hmu : conn.mu with
  | true =>
    rw [GetMongoDB_of_locked drv conn hmu]
    exact ⟨rfl, fun h => (by cases h), rfl⟩
  | false =>
    rw [GetMongoDB_of_not_creation drv conn hmu hpath, clampPoolSize_pool,
      range_all_sick drv _ _ hsick (by rw [clampPoolSize_pool]; exact hopen)]
    refine ⟨rfl, fun _ => rfl, ?_⟩
    simp only [List.countP_eq_zero, List.mem_map]
    rintro e ⟨x, -, rfl⟩
    simp [Event.isNewClient]

/-- Claim C1, as the code has it.  In a pool whose channel is open (no call of the
package closes it, see `Reach.chan_kept`), when `GetMongoDB` does not take the
creation path and no idle handle probes healthy, the call is parked: with the
mutex free it probes and drops every idle handle and is then parked on the
receive from the empty channel.  It calls no driver construction and does not
return.  The fallback of line 63 is not reached, so the call waits for a send on
the channel, that is for a release. -/
theorem GetMongoDB_parks_when_exhausted (drv : Driver) (conn : MongoConnection)
    (hopen : conn.pool.closed = false) (hpath : ¬ takesCreationPath conn)
    (hsick : ∀ db ∈ conn.pool.queue, drv.Ping db ≠ none) :
    (GetMongoDB drv conn).out = .parked ∧
      (conn.mu = false → (GetMongoDB drv conn).trace = conn.pool.queue.map Event.ping) ∧
      (GetMongoDB drv conn).trace.countP Event.isNewClient = 0 := by
  exact GetMongoDB_exhausted drv conn hopen hpath hsick

/-- Claim C3.  When `GetMongoDB`, with the mutex free, does not take the creation
path and the channel holds `pre ++ db :: post`, where every handle of `pre`
fails its probe and `db` probes healthy, the call returns `db` with a nil error,
probes the handles of `pre` and `db` in that order and calls no driver
construction; the handles of `pre` are taken off the channel with `db`, and
`post` stays, in its order. -/
theorem GetMongoDB_first_healthy (drv : Driver) (conn : MongoConnection) (pre : List Handle)
    (db : Handle) (post : List Handle) (hmu : conn.mu = false)
    (hpath : ¬ takesCreationPath conn)
    (hq : conn.pool.queue = pre ++ db :: post) (hpre : ∀ x ∈ pre, drv.Ping x ≠ none)
    (hdb : drv.Ping db = none) :
    (GetMongoDB drv conn).out = .returned (some db, none) ∧
      (GetMongoDB drv conn).conn = (clampPoolSize conn).withQueue post ∧
      (GetMongoDB drv conn).conn.pool.queue = post ∧
      (GetMongoDB drv conn).trace = pre.map Event.ping ++ [.ping db] ∧
      (GetMongoDB drv conn).trace.countP Event.isNewClient = 0 := by
  rw [GetMongoDB_of_not_creation drv conn hmu hpath, clampPoolSize_pool, hq,
    range_first_healthy drv _ pre db post hpre hdb]
  refine ⟨rfl, rfl, rfl, rfl, ?_⟩
  simp only [List.countP_eq_zero, List.mem_append, List.mem_map, List.mem_singleton]
  rintro e (⟨x, -, rfl⟩ | rfl) <;> simp [Event.isNewClient]

theorem NewMongoDB_isDriver (drv : Driver) (conn : MongoConnection) :
    ∀ e ∈ (NewMongoDB drv conn).2, e.isDriver = true := by
  simp only [NewMongoDB]
  split
  · simp [Event.isDriver]
  · simp [Event.isDriver]
  · split
    · simp [Event.isDriver]
    · simp [Event.isDriver]
    · split
      · simp [Event.isDriver]
      · simp [Event.isDriver]
      · split <;> simp [Event.isDriver]

theorem recover_isDriver (conn : MongoConnection)
    (r : Call (Option Handle × Option Error) × List Event)
    (hr : ∀ e ∈ r.2, e.isDriver = true) :
    ∀ e ∈ (GetMongoDB_recover conn r).trace, e.isDriver = true := by
  unfold GetMongoDB_recover
  split
  · exact hr
  · intro e he
    simp only [List.mem_append, List.mem_singleton] at he
    rcases he with he | rfl
    · exact hr e he
    · rfl

theorem create_isDriver (conn : MongoConnection)
    (r : Call (Option Handle × Option Error) × List Event)
    (hr : ∀ e ∈ r.2, e.isDriver = true) :
    ∀ e ∈ (GetMongoDB_create conn r).trace, e.isDriver = true := by
  unfold GetMongoDB_create
  split
  · exact recover_isDriver _ r hr
  · exact recover_isDriver _ r hr

theorem range_isDriver (drv : Driver) (conn : MongoConnection) (q : List Handle) :
    ∀ e ∈ (GetMongoDB_range drv conn q).trace, e.isDriver = true := by
  induction q with
  | nil =>
    simp only [GetMongoDB_range]
    split
    · exact recover_isDriver _ _ (NewMongoDB_isDriver drv _)
    · simp
  | cons x xs ih =>
    simp only [GetMongoDB_range]
    split
    · simp [Event.isDriver]
    · intro e he
      simp only [List.mem_cons] at he
      rcases he with rfl | he
      · rfl
      · exact ih e he

theorem GetMongoDB_isDriver (drv : Driver) (conn : MongoConnection) :
    ∀ e ∈ (GetMongoDB drv conn).trace, e.isDriver = true := by
  cases hmu : conn.mu with
  | true => rw [GetMongoDB_of_locked drv conn hmu]; simp
  | false =>
    by_cases h : takesCreationPath conn
    · rw [GetMongoDB_of_creation drv conn hmu h]
      exact create_isDriver _ _ (NewMongoDB_isDriver drv _)
    · rw [GetMongoDB_of_not_creation drv conn hmu h]
      exact range_isDriver drv _ _

theorem PutMongoDB_isDriver (drv : Driver) (db : Option Handle) (conn : MongoConnection) :
    ∀ e ∈ (PutMongoDB drv db conn).trace, e.isDriver = true := by
  cases db with
  | none => simp [PutMongoDB]
  | some h =>
    simp only [PutMongoDB]
    split <;> simp [Event.isDriver]

theorem filter_driver_nil (p : Event → Bool) (hp : ∀ e, e.isDriver = true → p e = false)
    (l : List Event) (hl : ∀ e ∈ l, e.isDriver = true) : l.filter p = [] := by
  rw [List.filter_eq_nil_iff]
  intro e he
  simp [hp e (hl e he)]

theorem isCallOrPut_driver (e : Event) (h : e.isDriver = true) : e.isCallOrPut = false := by
  cases e <;> simp_all [Event.isDriver, Event.isCallOrPut]

theorem isDone_driver (e : Event) (h : e.isDriver = true) : e.isDone = false := by
  cases e <;> simp_all [Event.isDriver, Event.isDone]

theorem isPush_driver (e : Event) (h : e.isDriver = true) : e.isPush = false := by
  cases e <;> simp_all [Event.isDriver, Event.isPush]

theorem DBAsync_of_error (drv drv2 : Driver) (wg : Option WaitGroup) (f : Operation)
    (conn : MongoConnection) (db : Option Handle) (e : Error)
    (hget : (GetMongoDB drv conn).out = .returned (db, some e)) :
    DBAsync drv drv2 wg f conn =
      ⟨(GetMongoDB drv conn).conn,
        .get :: (GetMongoDB drv conn).trace ++ deferDone wg ++ deferPush (some e),
        .returned (some e)⟩ := by
  simp only [DBAsync, DBAsync_from, hget]

theorem DBAsync_of_nil (drv drv2 : Driver) (wg : Option WaitGroup) (f : Operation)
    (conn : MongoConnection)
    (hget : (GetMongoDB drv conn).out = .returned (none, none)) :
    DBAsync drv drv2 wg f conn =
      ⟨(GetMongoDB drv conn).conn,
        .get :: (GetMongoDB drv conn).trace ++ deferDone wg ++ deferPush (some "cannot get db"),
        .returned (some "cannot get db")⟩ := by
  simp only [DBAsync, DBAsync_from, hget]

theorem DBAsync_of_handle (drv drv2 : Driver) (wg : Option WaitGroup) (f : Operation)
    (conn : MongoConnection) (db : Handle)
    (hget : (GetMongoDB drv conn).out = .returned (some db, none)) :
    DBAsync drv drv2 wg f conn =
      ⟨(PutMongoDB drv2 (some db) (f db (GetMongoDB drv conn).conn).1).conn,
        .get :: (GetMongoDB drv conn).trace ++ [.call db, .put db] ++
          (PutMongoDB drv2 (some db) (f db (GetMongoDB drv conn).conn).1).trace ++
          deferDone wg ++ deferPush (f db (GetMongoDB drv conn).conn).2,
        .returned (f db (GetMongoDB drv conn).conn).2⟩ := by
  simp only [DBAsync, DBAsync_from, hget]

/-- A call of `DBAsync` whose `GetMongoDB` is parked is parked with it, before any
deferred call has run. -/
theorem DBAsync_of_parked (drv drv2 : Driver) (wg : Option WaitGroup) (f : Operation)
    (conn : MongoConnection) (hget : (GetMongoDB drv conn).out = .parked) :
    DBAsync drv drv2 wg f conn =
      ⟨(GetMongoDB drv conn).conn, .get :: (GetMongoDB drv conn).trace, .parked⟩ := by
  simp only [DBAsync, DBAsync_from, hget]

theorem filter_deferDone (p : Event → Bool) (hp : ∀ w, p (.done w) = false)
    (wg : Option WaitGroup) : (deferDone wg).filter p = [] := by
  cases wg <;> simp [deferDone, hp]

theorem filter_deferPush (p : Event → Bool) (hp : ∀ e, p (.push e) = false)
    (err : Option Error) : (deferPush err).filter p = [] := by
  cases err <;> simp [deferPush, hp]

/-- Claim C5.  In one call of `DBAsync`, for every operation `f`, with any result.
When `GetMongoDB` returned the handle `h` with a nil error: the calls of `f` and
of `PutMongoDB` made by `DBAsync` are exactly one call of `f` and then one call of
`PutMongoDB`, both with `h`; the trace is the acquire, then `f`, then the
release with the calls `PutMongoDB` makes, then the deferred calls; the pool
left is the one `PutMongoDB` leaves from the pool `f` left, so a handle that
probes healthy at the release is handed to a sending goroutine; and the result
is the result of `f`.  When `GetMongoDB` returned an error or a nil handle,
`DBAsync` calls neither `f` nor `PutMongoDB`: the pool is left as `GetMongoDB`
left it and the trace holds the acquire and the deferred calls only. -/
theorem DBAsync_releases_once (drv drv2 : Driver) (wg : Option WaitGroup) (f : Operation)
    (conn : MongoConnection) (db : Option Handle) (err : Option Error)
    (hget : (GetMongoDB drv conn).out = .returned (db, err)) :
    (∀ h, db = some h → err = none →
      (DBAsync drv drv2 wg f conn).trace.filter Event.isCallOrPut = [.call h, .put h] ∧
      (DBAsync drv drv2 wg f conn).trace =
        .get :: (GetMongoDB drv conn).trace ++ [.call h, .put h] ++
          (PutMongoDB drv2 (some h) (f h (GetMongoDB drv conn).conn).1).trace ++
          deferDone wg ++ deferPush (f h (GetMongoDB drv conn).conn).2 ∧
      (DBAsync drv drv2 wg f conn).conn =
        (PutMongoDB drv2 (some h) (f h (GetMongoDB drv conn).conn).1).conn ∧
      (drv2.Ping h = none →
        (DBAsync drv drv2 wg f conn).conn.senders =
          (f h (GetMongoDB drv conn).conn).1.senders ++ [h]) ∧
      (DBAsync drv drv2 wg f conn).out = .returned (f h (GetMongoDB drv conn).conn).2) ∧
    (err ≠ none ∨ db = none →
      (DBAsync drv drv2 wg f conn).trace.filter Event.isCallOrPut = [] ∧
      (DBAsync drv drv2 wg f conn).conn = (GetMongoDB drv conn).conn ∧
      ∃ e, (DBAsync drv drv2 wg f conn).out = .returned (some e) ∧
        (DBAsync drv drv2 wg f conn).trace =
          .get :: (GetMongoDB drv conn).trace ++ deferDone wg ++ deferPush (some e)) := by
  have hg := filter_driver_nil Event.isCallOrPut isCallOrPut_driver _
    (GetMongoDB_isDriver drv conn)
  have hd := filter_deferDone Event.isCallOrPut (fun _ => rfl) wg
  have hp := fun e => filter_deferPush Event.isCallOrPut (fun _ => rfl) e
  constructor
  · rintro h rfl rfl
    rw [DBAsync_of_handle drv drv2 wg f conn h hget]
    have hput := filter_driver_nil Event.isCallOrPut isCallOrPut_driver _
      (PutMongoDB_isDriver drv2 (some h) (f h (GetMongoDB drv conn).conn).1)
    refine ⟨?_, rfl, rfl, ?_, rfl⟩
    · simp [List.filter_cons, List.filter_append, hg, hd, hp, hput, Event.isCallOrPut]
    · intro hping
      simp [PutMongoDB, hping]
  · intro h
    cases err with
    | some e =>
      rw [DBAsync_of_error drv drv2 wg f conn db e hget]
      refine ⟨?_, rfl, e, rfl, rfl⟩
      simp [List.filter_cons, List.filter_append, hg, hd, hp, Event.isCallOrPut]
    | none =>
      rcases h with h | rfl
      · exact absurd rfl h
      · rw [DBAsync_of_nil drv drv2 wg f conn hget]
        refine ⟨?_, rfl, _, rfl, rfl⟩
        simp [List.filter_cons, List.filter_append, hg, hd, hp, Event.isCallOrPut]

theorem countP_driver_zero (p : Event → Bool) (hp : ∀ e, e.isDriver = true → p e = false)
    (l : List Event) (hl : ∀ e ∈ l, e.isDriver = true) : l.countP p = 0 := by
  rw [List.countP_eq_zero]
  intro e he
  simp [hp e (hl e he)]

theorem deferPush_isPush (err : Option Error) : ∀ e ∈ deferPush err, e.isPush = true := by
  cases err <;> simp [deferPush, Event.isPush]

/-- In a call of `DBAsync` whose `GetMongoDB` returned (with an error,
with a nil handle, or with a handle, whatever `f` then returns): with a non-nil
wait group `wg`, `wg.Done` is called exactly once, the call of `DBAsync` returns,
and its trace is `pre ++ done wg :: post` where `pre` holds no `Done` and `post`
holds only sends on `conn.Errors`, so the acquire, `f` and release steps all come
before the mark; with a nil wait group `Done` is not called. -/
theorem DBAsync_done_when_acquired (drv drv2 : Driver) (f : Operation) (conn : MongoConnection)
    (db : Option Handle) (err : Option Error)
    (hget : (GetMongoDB drv conn).out = .returned (db, err)) :
    (∀ wg : WaitGroup,
      (DBAsync drv drv2 (some wg) f conn).trace.countP Event.isDone = 1 ∧
      ∃ pre post, (DBAsync drv drv2 (some wg) f conn).trace = pre ++ .done wg :: post ∧
        pre.countP Event.isDone = 0 ∧ (∀ e ∈ post, e.isPush = true) ∧
        (∃ res, (DBAsync drv drv2 (some wg) f conn).out = .returned res)) ∧
    (DBAsync drv drv2 none f conn).trace.countP Event.isDone = 0 := by
  have hg := countP_driver_zero Event.isDone isDone_driver _ (GetMongoDB_isDriver drv conn)
  have hput := fun h c => countP_driver_zero Event.isDone isDone_driver _
    (PutMongoDB_isDriver drv2 (some h) c)
  have hpush : ∀ e : Option Error, (deferPush e).countP Event.isDone = 0 := by
    intro e; cases e <;> simp [deferPush, Event.isDone]
  cases err with
  | some e =>
    constructor
    · intro wg
      rw [DBAsync_of_error drv drv2 (some wg) f conn db e hget]
      refine ⟨?_, .get :: (GetMongoDB drv conn).trace, deferPush (some e), ?_, ?_,
        deferPush_isPush _, _, rfl⟩
      · simp [List.countP_cons, List.countP_append, hg, hpush, deferDone, Event.isDone]
      · simp [deferDone]
      · simp [List.countP_cons, hg, Event.isDone]
    · rw [DBAsync_of_error drv drv2 none f conn db e hget]
      simp [List.countP_cons, List.countP_append, hg, hpush, deferDone, Event.isDone]
  | none =>
    cases db with
    | none =>
      constructor
      · intro wg
        rw [DBAsync_of_nil drv drv2 (some wg) f conn hget]
        refine ⟨?_, .get :: (GetMongoDB drv conn).trace, deferPush (some "cannot get db"), ?_, ?_,
          deferPush_isPush _, _, rfl⟩
        · simp [List.countP_cons, List.countP_append, hg, hpush, deferDone, Event.isDone]
        · simp [deferDone]
        · simp [List.countP_cons, hg, Event.isDone]
      · rw [DBAsync_of_nil drv drv2 none f conn hget]
        simp [List.countP_cons, List.countP_append, hg, hpush, deferDone, Event.isDone]
    | some h =>
      constructor
      · intro wg
        rw [DBAsync_of_handle drv drv2 (some wg) f conn h hget]
        refine ⟨?_, .get :: (GetMongoDB drv conn).trace ++ [.call h, .put h] ++
            (PutMongoDB drv2 (some h) (f h (GetMongoDB drv conn).conn).1).trace,
          deferPush (f h (GetMongoDB drv conn).conn).2, ?_, ?_, deferPush_isPush _, _, rfl⟩
        · simp [List.countP_cons, List.countP_append, hg, hpush, hput, deferDone, Event.isDone]
        · simp [deferDone]
        · simp [List.countP_cons, List.countP_append, hg, hput, Event.isDone]
      · rw [DBAsync_of_handle drv drv2 none f conn h hget]
        simp [List.countP_cons, List.countP_append, hg, hpush, hput, deferDone, Event.isDone]

/-- Claim C6, as the code has it.  A call of `DBAsync` with a wait group on a pool
whose channel is open, when `GetMongoDB` does not take the creation path and no
idle handle probes healthy: the call is parked inside `GetMongoDB` (line 121)
and `wg.Done` has not been called; the deferred calls run only when the call
returns, which it does not until some other caller releases a handle. -/
theorem DBAsync_parked_without_done (drv drv2 : Driver) (wg : WaitGroup) (f : Operation)
    (conn : MongoConnection) (hopen : conn.pool.closed = false)
    (hpath : ¬ takesCreationPath conn)
    (hsick : ∀ db ∈ conn.pool.queue, drv.Ping db ≠ none) :
    (DBAsync drv drv2 (some wg) f conn).out = .parked ∧
      (DBAsync drv drv2 (some wg) f conn).trace.countP Event.isDone = 0 := by
  have hget := (GetMongoDB_exhausted drv conn hopen hpath hsick).1
  have hg := countP_driver_zero Event.isDone isDone_driver _ (GetMongoDB_isDriver drv conn)
  rw [DBAsync_of_parked drv drv2 (some wg) f conn hget]
  refine ⟨rfl, ?_⟩
  simp [List.countP_cons, hg, Event.isDone]

/-- Claim C7.  In a call of `DBAsync` whose `GetMongoDB` returned `(db, err)`, the
call returns a result `res`: it is `err` when `err` is not nil, the error
`cannot get db` when `db` and `err` are both nil, and the result of `f` otherwise;
so `res` is an error exactly in these three cases.  When `res` is the error `e`,
the sends of `DBAsync` on `conn.Errors` are exactly the one send of `e`; when
`res` is nil, `DBAsync` sends nothing on `conn.Errors`. -/
theorem DBAsync_error_pushed (drv drv2 : Driver) (wg : Option WaitGroup) (f : Operation)
    (conn : MongoConnection) (db : Option Handle) (err : Option Error)
    (hget : (GetMongoDB drv conn).out = .returned (db, err)) :
    ∃ res, (DBAsync drv drv2 wg f conn).out = .returned res ∧
      (∀ e, err = some e → res = some e) ∧
      (db = none → err = none → res = some "cannot get db") ∧
      (∀ h, db = some h → err = none → res = (f h (GetMongoDB drv conn).conn).2) ∧
      (res ≠ none ↔ err ≠ none ∨ (db = none ∧ err = none) ∨
        ∃ h, db = some h ∧ err = none ∧ (f h (GetMongoDB drv conn).conn).2 ≠ none) ∧
      (∀ e, res = some e →
        (DBAsync drv drv2 wg f conn).trace.filter Event.isPush = [.push e]) ∧
      (res = none → (DBAsync drv drv2 wg f conn).trace.filter Event.isPush = []) := by
  have hg := filter_driver_nil Event.isPush isPush_driver _ (GetMongoDB_isDriver drv conn)
  have hd := filter_deferDone Event.isPush (fun _ => rfl) wg
  have hput := fun h c => filter_driver_nil Event.isPush isPush_driver _
    (PutMongoDB_isDriver drv2 (some h) c)
  cases err with
  | some e =>
    rw [DBAsync_of_error drv drv2 wg f conn db e hget]
    refine ⟨some e, rfl, ?_, ?_, ?_, ?_, ?_, ?_⟩
    · intro e2 h; exact h
    · intro _ h; cases h
    · intro _ _ h; cases h
    · simp
    · intro e2 h
      cases h
      simp [List.filter_cons, List.filter_append, hg, hd, deferPush, Event.isPush]
    · intro h; cases h
  | none =>
    cases db with
    | none =>
      rw [DBAsync_of_nil drv drv2 wg f conn hget]
      refine ⟨some "cannot get db", rfl, ?_, ?_, ?_, ?_, ?_, ?_⟩
      · intro _ h; cases h
      · intro _ _; rfl
      · intro _ h; cases h
      · simp
      · intro e2 h
        cases h
        simp [List.filter_cons, List.filter_append, hg, hd, deferPush, Event.isPush]
      · intro h; cases h
    | some h =>
      rw [DBAsync_of_handle drv drv2 wg f conn h hget]
      refine ⟨(f h (GetMongoDB drv conn).conn).2, rfl, ?_, ?_, ?_, ?_, ?_, ?_⟩
      · intro _ h; cases h
      · intro h; cases h
      · intro h2 hh _; cases hh; rfl
      · simp
      · intro e2 he
        simp [List.filter_cons, List.filter_append, hg, hd, hput, he, deferPush, Event.isPush]
      · intro he
        simp [List.filter_cons, List.filter_append, hg, hd, hput, he, deferPush, Event.isPush]

/-- Claim C4.  For every pool and every argument, `PutMongoDB` returns, and it
returns an error exactly when the handle is nil or its probe fails: for nil the
error is the nil-handle error and nothing is probed, for a failed probe it is the
error of the probe.  In both cases the pool is left exactly as it was and no
sending goroutine is started, so the handle does not reach the channel.  When it
returns nil it has probed the handle and started the one sending goroutine. -/
theorem PutMongoDB_error_iff (drv : Driver) (db : Option Handle) (conn : MongoConnection) :
    ∃ res, (PutMongoDB drv db conn).out = .returned res ∧
      (res ≠ none ↔ db = none ∨ ∃ h, db = some h ∧ drv.Ping h ≠ none) ∧
      (db = none → res = some "nil database cannot be putted" ∧
        (PutMongoDB drv db conn).trace = []) ∧
      (∀ h e, db = some h → drv.Ping h = some e → res = some e) ∧
      (res ≠ none → (PutMongoDB drv db conn).conn = conn ∧
        (PutMongoDB drv db conn).trace.countP Event.isGo = 0) ∧
      (res = none → ∀ h, db = some h → (PutMongoDB drv db conn).trace = [.ping h, .go h]) := by
  cases db with
  | none =>
    refine ⟨some "nil database cannot be putted", rfl, by simp, fun _ => ⟨rfl, rfl⟩, ?_, ?_, ?_⟩
    · intro _ _ h; cases h
    · intro _; exact ⟨rfl, rfl⟩
    · intro h; cases h
  | some h =>
    cases hp : drv.Ping h with
    | some e =>
      refine ⟨some e, by simp [PutMongoDB, hp], by simp [hp], ?_, ?_, ?_, ?_⟩
      · intro h; cases h
      · intro h2 e2 hh he; cases hh; rw [hp] at he; exact he
      · intro _; simp [PutMongoDB, hp, Event.isGo]
      · intro h; cases h
    | none =>
      refine ⟨none, by simp [PutMongoDB, hp], by simp [hp], ?_, ?_, ?_, ?_⟩
      · intro h; cases h
      · intro h2 e2 hh he; cases hh; rw [hp] at he; cases he
      · intro h; exact absurd rfl h
      · intro _ h2 hh; cases hh; simp [PutMongoDB, hp]

theorem close_range_all_ok (drv : Driver) (conn : MongoConnection) (q : List Handle)
    (hq : ∀ x ∈ q, drv.Disconnect x = none) (hopen : conn.pool.closed = false) :
    CloseMongoDB_range drv conn q = ⟨conn.withQueue [], q.map Event.disconnect, .parked⟩ := by
  induction q with
  | nil => simp [CloseMongoDB_range, hopen]
  | cons x xs ih =>
    have hx : drv.Disconnect x = none := hq x (by simp)
    have ih2 := ih (fun y hy => hq y (by simp [hy]))
    simp [CloseMongoDB_range, hx, ih2]

/-- Claim C8, as the code has it.  In a pool whose channel is open (no call of the
package closes it, see `Reach.chan_kept`) and whose idle handles all disconnect
without error, `CloseMongoDB` disconnects every handle of the channel, each once
and in order, empties the channel, and is then parked on the receive from the
empty channel: it does not return.  The `return` of line 86 is not reached. -/
theorem CloseMongoDB_parks_after_closing (drv : Driver) (conn : MongoConnection)
    (hopen : conn.pool.closed = false)
    (hok : ∀ db ∈ conn.pool.queue, drv.Disconnect db = none) :
    (CloseMongoDB drv conn).out = .parked ∧
      (CloseMongoDB drv conn).trace = conn.pool.queue.map Event.disconnect ∧
      (CloseMongoDB drv conn).conn.pool.queue = [] := by
  rw [CloseMongoDB, close_range_all_ok drv conn _ hok hopen]
  exact ⟨rfl, rfl, rfl⟩

/-- Claim C10, as the code has it.  For every configuration and driver, the first
driver call of `NewMongoDB` is `mongo.NewClient` with options whose connect
timeout is `time.Second`, whatever `ConnectTimeout` is configured, and whose
maximum pool size is `uint64(ConnectTimeout)`.  The timeout handed over is the
configured number of seconds only when `ConnectTimeout` is 1. -/
theorem NewMongoDB_connect_timeout (drv : Driver) (conn : MongoConnection) :
    ∃ o rest, (NewMongoDB drv conn).2 = .newClient o :: rest ∧
      rest.countP Event.isNewClient = 0 ∧
      o.ConnectTimeout = some Second ∧
      o.MaxPoolSize = some (uint64 conn.config.ConnectTimeout) ∧
      (o.ConnectTimeout = some (conn.config.ConnectTimeout * Second) ↔
        conn.config.ConnectTimeout = 1) := by
  obtain ⟨rest, h1, h2⟩ := NewMongoDB_trace drv conn
  refine ⟨_, rest, h1, h2, rfl, rfl, ?_⟩
  simp only [mongoOptions, SetMaxPoolSize, SetConnectTimeout, Option.some.injEq, Second]
  constructor
  · intro h; omega
  · intro h; omega

theorem acquireAll_creates (c0 : MongoConnection) (drvs : List Driver) :
    ∀ conn : MongoConnection, conn.config = c0.config → conn.mu = false →
      1 ≤ conn.config.PoolSize → conn.pool.queue = [] →
      conn.poolLength + drvs.length ≤ conn.config.PoolSize →
      (∀ drv ∈ drvs, ∃ res, (NewMongoDB drv c0).1 = .returns res) →
      List.Forall₂ createsOne drvs (acquireAll drvs conn) ∧
      ((acquireAll drvs conn).map (fun p => p.2.trace.countP Event.isNewClient)).sum
        = drvs.length := by
  induction drvs with
  | nil => intro conn _ _ _ _ _ _; exact ⟨List.Forall₂.nil, rfl⟩
  | cons drv rest ih =>
    intro conn hc0 hmu hC hq hN hret
    have hclamp := clampPoolSize_of_pos conn hC
    have hpath : takesCreationPath conn := by
      unfold takesCreationPath
      rw [hclamp]
      constructor
      · simp [Chan.len, hq]
      · simp only [List.length_cons, Nat.cast_add, Nat.cast_one] at hN
        omega
    obtain ⟨res, hres0⟩ := hret drv (by simp)
    have hres : (NewMongoDB drv conn).1 = .returns res := by
      rw [NewMongoDB_config drv conn c0 hc0]; exact hres0
    have hrun := GetMongoDB_of_creation drv conn hmu hpath
    rw [hclamp, GetMongoDB_create_returns conn _ res hres] at hrun
    obtain ⟨tl, htl, htl0⟩ := NewMongoDB_trace drv conn
    have hcount : (GetMongoDB drv conn).trace.countP Event.isNewClient = 1 := by
      rw [hrun]
      simp only [htl, List.countP_cons, htl0, Event.isNewClient]
      rfl
    have hpool : (GetMongoDB drv conn).conn.pool = conn.pool := by
      rw [hrun]; dsimp only; split <;> rfl
    have hsend : (GetMongoDB drv conn).conn.senders = conn.senders := by
      rw [hrun]; dsimp only; split <;> rfl
    have hcfg : (GetMongoDB drv conn).conn.config = conn.config := by
      rw [hrun]; dsimp only; split <;> rfl
    have hmu2 : (GetMongoDB drv conn).conn.mu = false := by
      rw [hrun]; dsimp only; split <;> exact hmu
    have hlen : (GetMongoDB drv conn).conn.poolLength ≤ conn.poolLength + 1 := by
      rw [hrun]; dsimp only; split
      · exact le_refl _
      · omega
    have hrec := ih (GetMongoDB drv conn).conn (by rw [hcfg]; exact hc0) hmu2
      (by rw [hcfg]; exact hC)
      (by rw [hpool]; exact hq)
      (by
        rw [hcfg]
        simp only [List.length_cons, Nat.cast_add, Nat.cast_one] at hN
        omega)
      (fun d hd => hret d (by simp [hd]))
    constructor
    · refine List.Forall₂.cons ⟨hpath, ⟨res, hres, ?_⟩, ?_, hcount, hpool, hsend, hq, hmu, hmu2⟩
        hrec.1
      · rw [hrun]
      · rw [hrun]
    · simp only [acquireAll, List.map_cons, List.sum_cons, hcount, hrec.2, List.length_cons]
      omega

theorem NewMongoConnection_some (dbConfig : DBConfig) (conn : MongoConnection)
    (hnew : NewMongoConnection dbConfig = some conn) :
    conn.config = dbConfig ∧ conn.poolLength = 0 ∧ conn.pool.queue = [] ∧
      conn.pool.closed = false ∧ conn.senders = [] ∧ conn.mu = false := by
  unfold NewMongoConnection at hnew
  split at hnew
  · cases hnew
  · cases hnew
    exact ⟨rfl, rfl, rfl, rfl, rfl, rfl⟩

/-- Claim C2, amended.  On the pool that `NewMongoConnection` builds with capacity
`C >= 1`, `N <= C` serial calls of `GetMongoDB` with nothing in between, whose
driver constructions all return (a handle or an error, whichever), all take the
creation path: each call makes exactly one driver construction, returns the
handle or error of that construction (it is not parked) and leaves the channel
as it was.  The constructions number `N` in all, which is at most `C`. -/
theorem fresh_pool_acquires_create (dbConfig : DBConfig) (conn : MongoConnection)
    (drvs : List Driver) (hC : 1 ≤ dbConfig.PoolSize)
    (hnew : NewMongoConnection dbConfig = some conn)
    (hN : (drvs.length : Int) ≤ dbConfig.PoolSize)
    (hret : ∀ drv ∈ drvs, ∃ res, (NewMongoDB drv conn).1 = .returns res) :
    List.Forall₂ createsOne drvs (acquireAll drvs conn) ∧
      ((acquireAll drvs conn).map (fun p => p.2.trace.countP Event.isNewClient)).sum
        = drvs.length ∧
      Int.ofNat ((acquireAll drvs conn).map (fun p => p.2.trace.countP Event.isNewClient)).sum
        ≤ dbConfig.PoolSize := by
  obtain ⟨hcfg, hlen, hq, -, -, hmu⟩ := NewMongoConnection_some dbConfig conn hnew
  have h := acquireAll_creates conn drvs conn rfl hmu (by rw [hcfg]; exact hC) hq
    (by rw [hcfg, hlen]; omega) hret
  refine ⟨h.1, h.2, ?_⟩
  rw [h.2]
  exact hN

/-- Claim C2 as stated fails when a driver construction panics.  On the fresh pool
of capacity 2, two serial calls of `GetMongoDB`, the first with a driver whose
`mongo.NewClient` panics: the construction of the first call gives neither a
handle nor an error, the handler of lines 40-44 makes the call return nil and
nil, and the second call does not return and makes no construction. -/
theorem fresh_pool_acquires_create_counterexample :
    1 ≤ scenarioConfig.PoolSize ∧ NewMongoConnection scenarioConfig = some freshPool ∧
      Int.ofNat [panickingDriver, healthyDriver 2].length ≤ scenarioConfig.PoolSize ∧
      (NewMongoDB panickingDriver freshPool).1 = .panics "invalid client options" ∧
      (acquireAll [panickingDriver, healthyDriver 2] freshPool).map (fun p => p.2.out)
        = [.returned (none, none), .parked] ∧
      (acquireAll [panickingDriver, healthyDriver 2] freshPool).map
        (fun p => p.2.trace.countP Event.isNewClient) = [1, 0] ∧
      ¬ List.Forall₂ createsOne [panickingDriver, healthyDriver 2]
        (acquireAll [panickingDriver, healthyDriver 2] freshPool) := by
  refine ⟨by decide, rfl, by decide, rfl, rfl, rfl, ?_⟩
  intro h
  cases h with
  | cons h1 _ =>
    obtain ⟨res, hres, -⟩ := h1.2.1
    cases hres

/-- Two calls of `GetMongoDB` on the fresh pool of capacity 2. -/
theorem fresh_pool_acquires_create_witness :
    1 ≤ scenarioConfig.PoolSize ∧ NewMongoConnection scenarioConfig = some freshPool ∧
      Int.ofNat [healthyDriver 1, healthyDriver 2].length ≤ scenarioConfig.PoolSize ∧
      (∀ drv ∈ [healthyDriver 1, healthyDriver 2],
        ∃ res, (NewMongoDB drv freshPool).1 = .returns res) ∧
      List.Forall₂ createsOne [healthyDriver 1, healthyDriver 2]
        (acquireAll [healthyDriver 1, healthyDriver 2] freshPool) ∧
      ((acquireAll [healthyDriver 1, healthyDriver 2] freshPool).map
        (fun p => p.2.trace.countP Event.isNewClient)).sum = 2 :=
  have hret : ∀ drv ∈ [healthyDriver 1, healthyDriver 2],
      ∃ res, (NewMongoDB drv freshPool).1 = .returns res := by
    intro drv hdrv
    simp only [List.mem_cons, List.mem_singleton, List.not_mem_nil, or_false] at hdrv
    rcases hdrv with rfl | rfl
    · exact ⟨(some 1, none), rfl⟩
    · exact ⟨(some 2, none), rfl⟩
  have h := fresh_pool_acquires_create scenarioConfig freshPool
    [healthyDriver 1, healthyDriver 2] (by decide) rfl (by decide) hret
  ⟨by decide, rfl, by decide, hret, h.1, h.2.1⟩

theorem Grows.refl (c : MongoConnection) : Grows c c := ⟨le_refl _, rfl, id⟩

theorem Grows.trans {c d e : MongoConnection} (h1 : Grows c d) (h2 : Grows d e) :
    Grows c e :=
  ⟨le_trans h1.1 h2.1, h2.2.1.trans h1.2.1, fun h => h2.2.2 (h1.2.2 h)⟩

theorem Grows.of_eq {c d : MongoConnection} (h1 : d.poolLength = c.poolLength)
    (h2 : d.config = c.config) : Grows c d :=
  ⟨by rw [h1], by rw [h2], fun h => by rw [h1, h2]; exact h⟩

theorem recover_conn (c : MongoConnection)
    (r : Call (Option Handle × Option Error) × List Event) :
    (GetMongoDB_recover c r).conn = c := by
  unfold GetMongoDB_recover
  split <;> rfl

theorem range_fields (drv : Driver) (c : MongoConnection) (q : List Handle) :
    (GetMongoDB_range drv c q).conn.poolLength = c.poolLength ∧
      (GetMongoDB_range drv c q).conn.config = c.config := by
  induction q with
  | nil =>
    simp only [GetMongoDB_range]
    split
    · rw [recover_conn]; exact ⟨rfl, rfl⟩
    · exact ⟨rfl, rfl⟩
  | cons x xs ih =>
    simp only [GetMongoDB_range]
    split
    · exact ⟨rfl, rfl⟩
    · exact ih

theorem close_fields (drv : Driver) (c : MongoConnection) (q : List Handle) :
    (CloseMongoDB_range drv c q).conn.poolLength = c.poolLength ∧
      (CloseMongoDB_range drv c q).conn.config = c.config := by
  induction q with
  | nil => simp only [CloseMongoDB_range]; split <;> exact ⟨rfl, rfl⟩
  | cons x xs ih =>
    simp only [CloseMongoDB_range]
    split
    · exact ⟨rfl, rfl⟩
    · exact ih

theorem put_fields (drv : Driver) (db : Option Handle) (c : MongoConnection) :
    (PutMongoDB drv db c).conn.poolLength = c.poolLength ∧
      (PutMongoDB drv db c).conn.config = c.config := by
  cases db with
  | none => exact ⟨rfl, rfl⟩
  | some h => simp only [PutMongoDB]; split <;> exact ⟨rfl, rfl⟩

theorem go_fields (i : Nat) (c d : MongoConnection) (h : PutMongoDB_go i c = some d) :
    d.poolLength = c.poolLength ∧ d.config = c.config := by
  unfold PutMongoDB_go at h
  split at h
  · cases h
  · split at h
    · cases h
    · cases h; exact ⟨rfl, rfl⟩

theorem Grows.clamp (c : MongoConnection) : Grows c (clampPoolSize c) := by
  refine ⟨by rw [clampPoolSize_poolLength], ?_, ?_⟩
  · rw [clampPoolSize_PoolSize]; omega
  · rw [clampPoolSize_poolLength, clampPoolSize_PoolSize]; omega

theorem Grows.range (drv : Driver) (c : MongoConnection) (q : List Handle) :
    Grows c (GetMongoDB_range drv c q).conn :=
  Grows.of_eq (range_fields drv c q).1 (range_fields drv c q).2

theorem Grows.create (c : MongoConnection)
    (r : Call (Option Handle × Option Error) × List Event)
    (h : c.poolLength < c.config.PoolSize) : Grows c (GetMongoDB_create c r).conn := by
  unfold GetMongoDB_create
  split
  · rw [recover_conn]
    split
    · refine ⟨by simp, rfl, fun _ => ?_⟩
      simp only [] at h ⊢
      omega
    · exact Grows.refl _
  · rw [recover_conn]
    exact Grows.of_eq rfl rfl

theorem Grows.get (drv : Driver) (c : MongoConnection) : Grows c (GetMongoDB drv c).conn := by
  cases hmu : c.mu with
  | true =>
    rw [GetMongoDB_of_locked drv c hmu]
    exact Grows.clamp c
  | false =>
    by_cases h : takesCreationPath c
    · rw [GetMongoDB_of_creation drv c hmu h]
      exact Grows.trans (Grows.clamp c) (Grows.create _ _ h.2)
    · rw [GetMongoDB_of_not_creation drv c hmu h]
      exact Grows.trans (Grows.clamp c) (Grows.range drv _ _)

theorem Grows.put (drv : Driver) (db : Option Handle) (c : MongoConnection) :
    Grows c (PutMongoDB drv db c).conn :=
  Grows.of_eq (put_fields drv db c).1 (put_fields drv db c).2

theorem Grows.close (drv : Driver) (c : MongoConnection) : Grows c (CloseMongoDB drv c).conn :=
  Grows.of_eq (close_fields drv c _).1 (close_fields drv c _).2

theorem Grows.async (drv2 : Driver) (wg : Option WaitGroup) (f : Operation)
    (hf : ∀ db u, Grows u (f db u).1) (r : Run (Option Handle × Option Error)) :
    Grows r.conn (DBAsync_from drv2 wg f r).conn := by
  unfold DBAsync_from
  split
  · exact Grows.refl _
  · exact Grows.refl _
  · exact Grows.refl _
  · exact Grows.trans (hf _ _) (Grows.put _ _ _)

theorem Reach.grows {c d : MongoConnection} (h : Reach c d) : Grows c d := by
  induction h with
  | refl c => exact Grows.refl c
  | acquire drv _ ih => exact ih.trans (Grows.get drv _)
  | wake drv _ ih => exact ih.trans (Grows.range drv _ _)
  | release drv db _ ih => exact ih.trans (Grows.put drv db _)
  | send i _ hgo ih => exact ih.trans (Grows.of_eq (go_fields i _ _ hgo).1 (go_fields i _ _ hgo).2)
  | shutdown drv _ ih => exact ih.trans (Grows.close drv _)
  | async drv drv2 wg f _ _ ih ihf =>
    exact ih.trans ((Grows.get drv _).trans (Grows.async drv2 wg f ihf _))
  | wakeAsync drv drv2 wg f _ _ ih ihf =>
    exact ih.trans ((Grows.range drv _ _).trans (Grows.async drv2 wg f ihf _))

/-- Claim C9.  Let `conn` be the pool that `NewMongoConnection` builds from a
configuration with `PoolSize = C >= 0`, let `c` be reached from `conn` and `d`
from `c` by any calls of `GetMongoDB`, `PutMongoDB`, `CloseMongoDB` and `DBAsync`
with any driver answers.  Then `poolLength` has not decreased from `c` to `d`,
and in `d` it is at most `max C 1`. -/
theorem poolLength_monotone_bounded (dbConfig : DBConfig) (conn c d : MongoConnection)
    (_hC : 0 ≤ dbConfig.PoolSize) (hnew : NewMongoConnection dbConfig = some conn)
    (hc : Reach conn c) (hd : Reach c d) :
    c.poolLength ≤ d.poolLength ∧ d.poolLength ≤ max dbConfig.PoolSize 1 := by
  obtain ⟨hcfg, hlen, -, -, -, -⟩ := NewMongoConnection_some dbConfig conn hnew
  have h1 := (Reach.grows hc).trans (Reach.grows hd)
  refine ⟨(Reach.grows hd).1, ?_⟩
  have h2 := h1.2.2 (by rw [hlen]; omega)
  rw [h1.2.1, hcfg] at h2
  exact h2

theorem range_chan (drv : Driver) (c : MongoConnection) (q : List Handle) :
    (GetMongoDB_range drv c q).conn.pool.closed = c.pool.closed ∧
      (GetMongoDB_range drv c q).conn.pool.cap = c.pool.cap := by
  induction q with
  | nil =>
    simp only [GetMongoDB_range]
    split
    · rw [recover_conn]; exact ⟨rfl, rfl⟩
    · exact ⟨rfl, rfl⟩
  | cons x xs ih =>
    simp only [GetMongoDB_range]
    split
    · exact ⟨rfl, rfl⟩
    · exact ih

theorem close_chan (drv : Driver) (c : MongoConnection) (q : List Handle) :
    (CloseMongoDB_range drv c q).conn.pool.closed = c.pool.closed ∧
      (CloseMongoDB_range drv c q).conn.pool.cap = c.pool.cap := by
  induction q with
  | nil => simp only [CloseMongoDB_range]; split <;> exact ⟨rfl, rfl⟩
  | cons x xs ih =>
    simp only [CloseMongoDB_range]
    split
    · exact ⟨rfl, rfl⟩
    · exact ih

theorem put_chan (drv : Driver) (db : Option Handle) (c : MongoConnection) :
    (PutMongoDB drv db c).conn.pool = c.pool := by
  cases db with
  | none => rfl
  | some h => simp only [PutMongoDB]; split <;> rfl

theorem go_chan (i : Nat) (c d : MongoConnection) (h : PutMongoDB_go i c = some d) :
    d.pool.closed = c.pool.closed ∧ d.pool.cap = c.pool.cap := by
  unfold PutMongoDB_go at h
  split at h
  · cases h
  · split at h
    · cases h
    · cases h; exact ⟨rfl, rfl⟩

theorem create_pool (c : MongoConnection)
    (r : Call (Option Handle × Option Error) × List Event) :
    (GetMongoDB_create c r).conn.pool = c.pool := by
  unfold GetMongoDB_create
  split
  · rw [recover_conn]; split <;> rfl
  · rw [recover_conn]

theorem get_chan (drv : Driver) (c : MongoConnection) :
    (GetMongoDB drv c).conn.pool.closed = c.pool.closed ∧
      (GetMongoDB drv c).conn.pool.cap = c.pool.cap := by
  cases hmu : c.mu with
  | true =>
    rw [GetMongoDB_of_locked drv c hmu]
    exact ⟨by rw [clampPoolSize_pool c], by rw [clampPoolSize_pool c]⟩
  | false =>
    by_cases h : takesCreationPath c
    · rw [GetMongoDB_of_creation drv c hmu h]
      have hc := create_pool (clampPoolSize c) (NewMongoDB drv (clampPoolSize c))
      rw [hc, clampPoolSize_pool c]
      exact ⟨rfl, rfl⟩
    · rw [GetMongoDB_of_not_creation drv c hmu h]
      have := range_chan drv (clampPoolSize c) (clampPoolSize c).pool.queue
      simp only [clampPoolSize_pool c] at this ⊢
      exact this

theorem async_chan (drv2 : Driver) (wg : Option WaitGroup) (f : Operation)
    (hf : ∀ db u, (f db u).1.pool.closed = u.pool.closed ∧ (f db u).1.pool.cap = u.pool.cap)
    (r : Run (Option Handle × Option Error)) :
    (DBAsync_from drv2 wg f r).conn.pool.closed = r.conn.pool.closed ∧
      (DBAsync_from drv2 wg f r).conn.pool.cap = r.conn.pool.cap := by
  unfold DBAsync_from
  split
  · exact ⟨rfl, rfl⟩
  · exact ⟨rfl, rfl⟩
  · exact ⟨rfl, rfl⟩
  · dsimp only
    rw [put_chan]
    exact hf _ _

/-- No call of the package closes the channel `conn.pool` or changes its
capacity. -/
theorem Reach.chan_kept {c d : MongoConnection} (h : Reach c d) :
    d.pool.closed = c.pool.closed ∧ d.pool.cap = c.pool.cap := by
  induction h with
  | refl c => exact ⟨rfl, rfl⟩
  | acquire drv _ ih =>
    exact ⟨(get_chan drv _).1.trans ih.1, (get_chan drv _).2.trans ih.2⟩
  | wake drv _ ih =>
    exact ⟨(range_chan drv _ _).1.trans ih.1, (range_chan drv _ _).2.trans ih.2⟩
  | release drv db _ ih =>
    rw [put_chan]; exact ih
  | send i _ hgo ih =>
    exact ⟨(go_chan i _ _ hgo).1.trans ih.1, (go_chan i _ _ hgo).2.trans ih.2⟩
  | shutdown drv _ ih =>
    exact ⟨(close_chan drv _ _).1.trans ih.1, (close_chan drv _ _).2.trans ih.2⟩
  | @async _ d drv drv2 wg f _ _ ih ihf =>
    have h1 := async_chan drv2 wg f ihf (GetMongoDB drv d)
    exact ⟨h1.1.trans ((get_chan drv d).1.trans ih.1),
      h1.2.trans ((get_chan drv d).2.trans ih.2)⟩
  | @wakeAsync _ d drv drv2 wg f _ _ ih ihf =>
    have h1 := async_chan drv2 wg f ihf (GetMongoDB_range drv d d.pool.queue)
    exact ⟨h1.1.trans ((range_chan drv d _).1.trans ih.1),
      h1.2.trans ((range_chan drv d _).2.trans ih.2)⟩

/-- A pool reached from one that `NewMongoConnection` built has an open channel. -/
theorem Reach.pool_open (dbConfig : DBConfig) (conn d : MongoConnection)
    (hnew : NewMongoConnection dbConfig = some conn) (h : Reach conn d) :
    d.pool.closed = false := by
  rw [(Reach.chan_kept h).1]
  exact (NewMongoConnection_some dbConfig conn hnew).2.2.2.1

/-- The scenario of C1: capacity 2, two handles built and checked out, none idle.
The third call of `GetMongoDB` is parked and constructs nothing. -/
theorem GetMongoDB_parks_when_exhausted_witness :
    NewMongoConnection scenarioConfig = some freshPool ∧
      (GetMongoDB (healthyDriver 2) (GetMongoDB (healthyDriver 1) freshPool).conn).conn
        = exhaustedPool ∧
      exhaustedPool.pool.closed = false ∧ ¬ takesCreationPath exhaustedPool ∧
      (GetMongoDB (healthyDriver 3) exhaustedPool).out = .parked ∧
      (GetMongoDB (healthyDriver 3) exhaustedPool).trace.countP Event.isNewClient = 0 :=
  have h := GetMongoDB_parks_when_exhausted (healthyDriver 3) exhaustedPool rfl (by decide)
    (by simp [exhaustedPool])
  ⟨rfl, rfl, rfl, by decide, h.1, h.2.2⟩

/-- Three idle handles of which the first is stale: the second is returned and the
third stays. -/
theorem GetMongoDB_first_healthy_witness :
    (idlePool.withQueue [1, 2, 3]).mu = false ∧
      ¬ takesCreationPath (idlePool.withQueue [1, 2, 3]) ∧
      (staleDriver 1).Ping 1 ≠ none ∧ (staleDriver 1).Ping 2 = none ∧
      (GetMongoDB (staleDriver 1) (idlePool.withQueue [1, 2, 3])).out
        = .returned (some 2, none) ∧
      (GetMongoDB (staleDriver 1) (idlePool.withQueue [1, 2, 3])).conn.pool.queue = [3] :=
  have h := GetMongoDB_first_healthy (staleDriver 1) (idlePool.withQueue [1, 2, 3]) [1] 2 [3]
    rfl (by decide) rfl (by decide) rfl
  ⟨rfl, by decide, by decide, rfl, h.1, h.2.2.1⟩

/-- One call of `DBAsync` on the fresh pool with an operation that fails: the
operation and the release are each called once, the handle is handed to a
sending goroutine, and the error of the operation is returned. -/
theorem DBAsync_releases_once_witness :
    (GetMongoDB (healthyDriver 1) freshPool).out = .returned (some 1, none) ∧
      (DBAsync (healthyDriver 1) (healthyDriver 1) (some 0) failingOperation freshPool).trace.filter
        Event.isCallOrPut = [.call 1, .put 1] ∧
      (DBAsync (healthyDriver 1) (healthyDriver 1) (some 0) failingOperation
        freshPool).conn.senders = [1] ∧
      (DBAsync (healthyDriver 1) (healthyDriver 1) (some 0) failingOperation freshPool).out
        = .returned (some "operation failed") :=
  have h := (DBAsync_releases_once (healthyDriver 1) (healthyDriver 1) (some 0)
    failingOperation freshPool (some 1) none rfl).1 1 rfl rfl
  ⟨rfl, h.1, h.2.2.2.1 rfl, h.2.2.2.2⟩

/-- The scenario of C6: `DBAsync` with the wait group 7 on the pool of capacity 2
with two handles checked out and none idle.  The call is parked and `Done` has
not been called. -/
theorem DBAsync_parked_without_done_witness :
    (GetMongoDB (healthyDriver 2) (GetMongoDB (healthyDriver 1) freshPool).conn).conn
        = exhaustedPool ∧
      exhaustedPool.pool.closed = false ∧ ¬ takesCreationPath exhaustedPool ∧
      (DBAsync (healthyDriver 3) (healthyDriver 3) (some 7) failingOperation
        exhaustedPool).out = .parked ∧
      (DBAsync (healthyDriver 3) (healthyDriver 3) (some 7) failingOperation
        exhaustedPool).trace.countP Event.isDone = 0 :=
  have h := DBAsync_parked_without_done (healthyDriver 3) (healthyDriver 3) 7 failingOperation
    exhaustedPool rfl (by decide) (by simp [exhaustedPool])
  ⟨rfl, rfl, by decide, h.1, h.2⟩

/-- One call of `DBAsync` with an operation that fails: its error is returned and
sent once. -/
theorem DBAsync_error_pushed_witness :
    (GetMongoDB (healthyDriver 1) freshPool).out = .returned (some 1, none) ∧
      ∃ res, (DBAsync (healthyDriver 1) (healthyDriver 1) none failingOperation freshPool).out
          = .returned res ∧
        res = some "operation failed" ∧
        (DBAsync (healthyDriver 1) (healthyDriver 1) none failingOperation freshPool).trace.filter
          Event.isPush = [.push "operation failed"] := by
  refine ⟨rfl, ?_⟩
  obtain ⟨res, h1, -, -, h4, -, h6, -⟩ := DBAsync_error_pushed (healthyDriver 1)
    (healthyDriver 1) none failingOperation freshPool (some 1) none rfl
  have hres : res = some "operation failed" := h4 1 rfl rfl
  exact ⟨res, h1, hres, h6 _ hres⟩

/-- The scenario of C8: two idle handles, none checked out, both disconnect without
error.  Both are disconnected, and the call is parked. -/
theorem CloseMongoDB_parks_after_closing_witness :
    idlePool.pool.closed = false ∧
      (∀ db ∈ idlePool.pool.queue, (healthyDriver 0).Disconnect db = none) ∧
      (CloseMongoDB (healthyDriver 0) idlePool).out = .parked ∧
      (CloseMongoDB (healthyDriver 0) idlePool).trace = [.disconnect 1, .disconnect 2] :=
  have h := CloseMongoDB_parks_after_closing (healthyDriver 0) idlePool rfl (fun _ _ => rfl)
  ⟨rfl, fun _ _ => rfl, h.1, h.2.1⟩

/-- The counter over two calls of `GetMongoDB` on the fresh pool of capacity 2. -/
theorem poolLength_monotone_bounded_witness :
    0 ≤ scenarioConfig.PoolSize ∧ NewMongoConnection scenarioConfig = some freshPool ∧
      Reach freshPool (GetMongoDB (healthyDriver 1) freshPool).conn ∧
      Reach (GetMongoDB (healthyDriver 1) freshPool).conn
        (GetMongoDB (healthyDriver 2) (GetMongoDB (healthyDriver 1) freshPool).conn).conn ∧
      (GetMongoDB (healthyDriver 1) freshPool).conn.poolLength ≤
        (GetMongoDB (healthyDriver 2) (GetMongoDB (healthyDriver 1) freshPool).conn).conn.poolLength ∧
      (GetMongoDB (healthyDriver 2) (GetMongoDB (healthyDriver 1) freshPool).conn).conn.poolLength
        ≤ max scenarioConfig.PoolSize 1 :=
  have h1 : Reach freshPool (GetMongoDB (healthyDriver 1) freshPool).conn :=
    Reach.acquire (healthyDriver 1) (Reach.refl freshPool)
  have h2 : Reach (GetMongoDB (healthyDriver 1) freshPool).conn
      (GetMongoDB (healthyDriver 2) (GetMongoDB (healthyDriver 1) freshPool).conn).conn :=
    Reach.acquire (healthyDriver 2) (Reach.refl _)
  have h := poolLength_monotone_bounded scenarioConfig freshPool _ _ (by decide) rfl h1 h2
  ⟨by decide, rfl, h1, h2, h.1, h.2⟩

end EndrMongoPool
